import Mathlib

/-!
Verification of the hinted-handoff (HH) subsystem of `gerryw/influxcloud`.

This file shallowly embeds the relevant parts of the source:
  * `src/hh/node_processor.go` — `NodeProcessor` (Open, Close, Purge,
    WriteShard, SendWrite, the worker loop `run`, `Active`) and the framing
    functions `marshalWrite` / `unmarshalWrite`;
  * `src/meta/store.go` — `store.dataNode`.

Bytes are modelled as `Nat` (values below 256 where it matters), `uint64`
values as `Nat` (with explicit `< 2^64` bounds where overflow matters),
and Go's `(value, error)` returns as products with `Option`/`Except`
components.  Go errors compared by identity (`io.EOF`,
`meta.ErrNodeNotFound`) are an inductive type `GoErr`; every freshly
created error (`fmt.Errorf`, decode errors) is `GoErr.generic`, which is
never identical to the two sentinels.

The durable queue (`src/hh/queue.go`) and the point codec
(`models.Point.MarshalBinary` / `models.ParsePoints`) are not under
`src/`; they are modelled from the spec, as documented on the
corresponding definitions below.
-/

namespace Influxcloud

/-- Big-endian encoding of a uint64 into 8 bytes, as
`binary.BigEndian.PutUint64` writes it in `marshalWrite`. -/
def putUint64 (n : Nat) : List Nat :=
  [n / 2 ^ 56 % 256, n / 2 ^ 48 % 256, n / 2 ^ 40 % 256, n / 2 ^ 32 % 256,
   n / 2 ^ 24 % 256, n / 2 ^ 16 % 256, n / 2 ^ 8 % 256, n % 256]

/-- Big-endian decoding of 8 bytes into a uint64, as
`binary.BigEndian.Uint64` reads `b[:8]` in `unmarshalWrite`. -/
def readUint64 : List Nat → Nat
  | [b0, b1, b2, b3, b4, b5, b6, b7] =>
      ((((((b0 * 256 + b1) * 256 + b2) * 256 + b3) * 256 + b4) * 256 + b5)
        * 256 + b6) * 256 + b7
  | _ => 0

/-- Modelled from the spec: a point of the external point codec
(`models.Point`).  The codec is opaque to the queue; a point carries the
bytes of its binary encoding (`raw`) and whether `MarshalBinary`
succeeds on it (`valid`). -/
structure Point where
  raw : List Nat
  valid : Bool
deriving DecidableEq

/-- A byte line the codec can emit and re-parse: nonempty, and free of
the newline terminator 0x0A and of the parse-poison byte 0. -/
def wellFormedLine (l : List Nat) : Bool :=
  !l.isEmpty && !l.contains 10 && !l.contains 0

/-- Modelled from the spec: `models.Point.MarshalBinary`.  Per-point
binary marshal; it fails exactly when the point is invalid or its
encoding is not a well-formed line. -/
def Point.marshalBinary (p : Point) : Option (List Nat) :=
  if p.valid && wellFormedLine p.raw then some p.raw else none

/-- Split a byte list at every 0x0A byte (newline-terminated lines, the
framing `marshalWrite` produces). -/
def splitNl : List Nat → List (List Nat)
  | [] => [[]]
  | c :: rest =>
    match splitNl rest with
    | [] => [[]]
    | r :: rs => if c == 10 then [] :: r :: rs else (c :: r) :: rs

/-- Modelled from the spec: `models.ParsePoints`.  Splits the payload on
newlines, skips empty lines, and parses each remaining line as a point;
it fails when some line is not well formed. -/
def parsePoints (b : List Nat) : List Point × Option String :=
  let lines := (splitNl b).filter (fun l => !l.isEmpty)
  if lines.all wellFormedLine then
    (lines.map (fun l => { raw := l, valid := true }), none)
  else
    ([], some "unable to parse points")

/-- The per-point loop body of `marshalWrite` (`src/hh/node_processor.go`
lines 403–412): each point that marshals successfully contributes its
encoding followed by a newline; a point that fails to marshal is
skipped. -/
def marshalPoints : List Point → List Nat
  | [] => []
  | p :: ps =>
    match p.marshalBinary with
    | none => marshalPoints ps
    | some pB => pB ++ [10] ++ marshalPoints ps

/-- `marshalWrite` (`src/hh/node_processor.go` lines 399–414): an 8-byte
big-endian shard ID followed by the newline-terminated point
encodings. -/
def marshalWrite (shardID : Nat) (points : List Point) : List Nat :=
  putUint64 shardID ++ marshalPoints points

/-- `unmarshalWrite` (`src/hh/node_processor.go` lines 416–423): returns
the Go triple `(shardID, points, err)`.  Inputs shorter than 8 bytes
yield the "too short" error; otherwise the shard ID is read from the
first 8 bytes and the rest is handed to the point parser. -/
def unmarshalWrite (b : List Nat) : Nat × List Point × Option String :=
  if b.length < 8 then
    (0, [], some ("too short: len = " ++ toString b.length))
  else
    let shardID := readUint64 (b.take 8)
    let (points, err) := parsePoints (b.drop 8)
    (shardID, points, err)

/-- Go errors compared by identity in `node_processor.go`: the sentinels
`io.EOF` and `meta.ErrNodeNotFound`, and every other (freshly created)
error value. -/
inductive GoErr where
  | eof
  | nodeNotFound
  | generic (msg : String)
deriving DecidableEq, BEq

/-- The counters of the `Statistics` struct
(`src/hh/node_processor.go` lines 147–158) touched by the modelled
operations.  The concurrency and disk counters are only written by the
fire-and-forget statistics goroutine and are not part of the model. -/
structure Statistics where
  WriteShardReq : Int := 0
  WriteShardReqPoints : Int := 0
  WriteNodeReqFail : Int := 0
  WriteNodeReqPoints : Int := 0
  WriteNodeReq : Int := 0
deriving DecidableEq

/-- The retry-related fields of the HH `Config` used by the worker loop
(durations in arbitrary integer units, e.g. milliseconds). -/
structure Config where
  RetryInterval : Int
  RetryMaxInterval : Int
deriving DecidableEq

/-- `meta.NodeInfo`, with the fields `store.dataNode` copies
(`src/meta/store.go` lines 487–494). -/
structure NodeInfo where
  ID : Nat
  TCPHost : String
  Host : String
deriving DecidableEq

/-- `store.dataNode` (`src/meta/store.go` lines 483–497): scan the
data-node list and return a copy of the first node whose ID matches,
else nil (and never an error). -/
def dataNode (dataNodes : List NodeInfo) (id : Nat) : Option NodeInfo :=
  match dataNodes with
  | [] => none
  | n :: rest =>
    if n.ID == id then some { ID := n.ID, TCPHost := n.TCPHost, Host := n.Host }
    else dataNode rest id

/-- State of a `NodeProcessor`.  `done = true` models a non-nil `done`
channel (the processor is open); `queue` models the durable queue's
blocks in FIFO order (modelled from the spec: the queue code is not
under `src/`, §4.2 of the spec gives Append/Current/Advance FIFO
semantics); `dirExists` models the queue directory on disk. -/
structure NPState where
  nodeID : Nat
  done : Bool
  queue : List (List Nat)
  queueOpen : Bool
  workerRunning : Bool
  dirExists : Bool
  stats : Statistics
deriving DecidableEq

/-- Environment outcomes consumed by `Open`: whether `os.MkdirAll`
succeeds, the result of `newQueue` (on success, the blocks recovered
from disk), and the error of `queue.Open` if any. -/
structure OpenEnv where
  mkdirOk : Bool
  newQueueResult : Except String (List (List Nat))
  queueOpenErr : Option String

/-- `NodeProcessor.Open` (`src/hh/node_processor.go` lines 76–109).
If already open (`done` non-nil) it returns nil immediately; otherwise
it sets `done`, creates the directory, opens the queue and spawns the
worker.  Note the source sets `done` before any fallible step, so a
failed `Open` leaves `done` set. -/
def Open (env : OpenEnv) (s : NPState) : Except String Unit × NPState :=
  if s.done then (.ok (), s)
  else
    let s1 := { s with done := true }
    if env.mkdirOk = false then (.error "mkdir all", s1)
    else
      let s2 := { s1 with dirExists := true }
      match env.newQueueResult with
      | .error e => (.error e, s2)
      | .ok blocks =>
        match env.queueOpenErr with
        | some e => (.error e, s2)
        | none =>
          (.ok (), { s2 with queue := blocks, queueOpen := true, workerRunning := true })

/-- `NodeProcessor.Close` (`src/hh/node_processor.go` lines 113–127).
If already closed it returns nil; otherwise it signals the worker,
waits for it, clears `done` and closes the queue (whose error, an
environment outcome, is returned). -/
def Close (queueCloseErr : Option String) (s : NPState) : Except String Unit × NPState :=
  if s.done = false then (.ok (), s)
  else
    let s1 := { s with done := false, workerRunning := false, queueOpen := false }
    match queueCloseErr with
    | some e => (.error e, s1)
    | none => (.ok (), s1)

/-- `NodeProcessor.Purge` (`src/hh/node_processor.go` lines 183–192):
error if the processor is open, otherwise `os.RemoveAll` on the queue
directory. -/
def Purge (s : NPState) : Except String Unit × NPState :=
  if s.done then (.error "node processor is open", s)
  else (.ok (), { s with dirExists := false, queue := [] })

/-- `NodeProcessor.WriteShard` (`src/hh/node_processor.go` lines
196–233).  `appendErr` is the outcome of `queue.Append` (modelled from
the spec: FIFO append, which can fail with not-open or queue-full).
Note the second `WriteShardReq` increment after a successful append,
and that the `len(b) == 0` guard can never fire since `marshalWrite`
always emits the 8-byte header. -/
def WriteShard (appendErr : Option String) (shardID : Nat) (points : List Point)
    (s : NPState) : Except String Unit × NPState :=
  if s.done = false then (.error "node processor is closed", s)
  else
    let s1 := { s with stats := { s.stats with
        WriteShardReq := s.stats.WriteShardReq + 1,
        WriteShardReqPoints := s.stats.WriteShardReqPoints + points.length } }
    let b := marshalWrite shardID points
    if b.length == 0 then (.ok (), s1)
    else
      match appendErr with
      | some e => (.error e, s1)
      | none =>
        (.ok (), { s1 with
            queue := s1.queue ++ [b],
            stats := { s1.stats with WriteShardReq := s1.stats.WriteShardReq + 1 } })

/-- `NodeProcessor.SendWrite` (`src/hh/node_processor.go` lines
306–363).  `metaRes` is the result of `metaClient.DataNode(nodeID)`
(for `store.dataNode` it is `.ok (dataNode nodes nodeID)`);
`writerErr` is the outcome of `shardWriter.WriteShard`.  `queue.Current`
and `queue.Advance` follow the spec's FIFO queue semantics: `Current`
yields the head block or EOF when empty, `Advance` drops the head.
The goroutine/channel pair of the source exchanges exactly one value
and is modelled sequentially. -/
def SendWrite (metaRes : Except GoErr (Option NodeInfo)) (writerErr : Option GoErr)
    (s : NPState) : Except GoErr Nat × NPState :=
  match metaRes with
  | .error e => (.error e, s)
  | .ok info =>
    if info.isNone then (.error .eof, s)
    else
      match s.queue with
      | [] => (.error .eof, s)
      | buf :: rest =>
        let (r, s1) :=
          match unmarshalWrite buf with
          | (_, _, some msg) =>
            (some (GoErr.generic msg),
             { s with stats := { s.stats with
                 WriteNodeReqFail := s.stats.WriteNodeReqFail + 1 } })
          | (_, points, none) =>
            match writerErr with
            | some e => (some e, s)
            | none =>
              (none, { s with stats := { s.stats with
                  WriteShardReq := s.stats.WriteShardReq + 1,
                  WriteNodeReq := s.stats.WriteNodeReq + 1,
                  WriteNodeReqPoints := s.stats.WriteNodeReqPoints + points.length } })
        match r with
        | some e =>
          if e == GoErr.eof || e == GoErr.nodeNotFound then (.error e, s1)
          else (.ok buf.length, { s1 with queue := rest })
        | none => (.ok buf.length, { s1 with queue := rest })

/-- The initial clamp of the worker loop's retry interval
(`src/hh/node_processor.go` lines 251–254). -/
def initialInterval (cfg : Config) : Int :=
  if cfg.RetryInterval > cfg.RetryMaxInterval then cfg.RetryMaxInterval
  else cfg.RetryInterval

/-- What the inner loop of `NodeProcessor.run` does after one
`SendWrite` result. -/
inductive RunStep where
  | exitWorker
  | breakInner
  | continueInner
deriving DecidableEq

/-- The per-result step of the worker loop
(`src/hh/node_processor.go` lines 272–298): EOF resets the interval and
breaks; node-not-found exits the worker; any other error only caps the
interval at `RetryMaxInterval` and breaks; success resets the interval
and continues draining. -/
def runOnSendResult (cfg : Config) (currInterval : Int)
    (res : Except GoErr Nat) : RunStep × Int :=
  match res with
  | .error .eof => (.breakInner, cfg.RetryInterval)
  | .error .nodeNotFound => (.exitWorker, currInterval)
  | .error (.generic _) =>
    (.breakInner,
     if currInterval > cfg.RetryMaxInterval then cfg.RetryMaxInterval else currInterval)
  | .ok _ => (.continueInner, cfg.RetryInterval)

/-- Retry interval after a sequence of `SendWrite` results is handled
by the worker loop. -/
def intervalAfter (cfg : Config) (curr : Int) (results : List (Except GoErr Nat)) : Int :=
  results.foldl (fun ci res => (runOnSendResult cfg ci res).2) curr

/-- A point whose encoding succeeds (one byte `0x41`). -/
def pA : Point := { raw := [65], valid := true }

/-- A second point whose encoding succeeds (bytes `0x42 0x43`). -/
def pB : Point := { raw := [66, 67], valid := true }

/-- A point whose `MarshalBinary` fails. -/
def pBad : Point := { raw := [68], valid := false }

/-- An open processor for node 2 with an empty queue and zeroed
counters. -/
def stOpen : NPState :=
  { nodeID := 2, done := true, queue := [], queueOpen := true,
    workerRunning := true, dirExists := true, stats := {} }

/-- The same processor in the closed state. -/
def stClosed : NPState :=
  { stOpen with done := false, queueOpen := false, workerRunning := false }

/-- An `Open` environment where every step succeeds and the directory
holds no data. -/
def envOk : OpenEnv := { mkdirOk := true, newQueueResult := .ok [], queueOpenErr := none }

/-- The state reached by a successful `Open` from `stClosed`. -/
def stOpened : NPState := (Open envOk stClosed).2

/-- An open processor whose queue holds the single block
`marshalWrite 7 [pA, pB]` (13 bytes). -/
def stOneBlock : NPState := { stOpen with queue := [marshalWrite 7 [pA, pB]] }

/-- An open processor whose queue head is a 3-byte block, too short to
decode. -/
def stShortBlock : NPState := { stOpen with queue := [[1, 2, 3]] }

/-- A live `NodeInfo` for node 2. -/
def node2 : NodeInfo := { ID := 2, TCPHost := "node2:8088", Host := "node2:8086" }

/-- The end-to-end scenario of claim C7: one `WriteShard` of two points
on `stOpen`… -/
def c7AfterWrite : Except String Unit × NPState := WriteShard none 7 [pA, pB] stOpen

/-- …followed by one worker `SendWrite` with an active node and a
successful stub shard writer. -/
def c7AfterSend : Except GoErr Nat × NPState :=
  SendWrite (.ok (some node2)) none c7AfterWrite.2

/-- The retry configuration of the C2 scenario: RetryInterval 100ms,
RetryMaxInterval 800ms. -/
def cfg100 : Config := { RetryInterval := 100, RetryMaxInterval := 800 }

theorem putUint64_length (n : Nat) : (putUint64 n).length = 8 := rfl

theorem readUint64_putUint64 (n : Nat) (h : n < 2 ^ 64) :
    readUint64 (putUint64 n) = n := by
  simp only [putUint64, readUint64]
  omega

theorem splitNl_ne_nil (b : List Nat) : splitNl b ≠ [] := by
  induction b with
  | nil => simp [splitNl]
  | cons c rest ih =>
    simp only [splitNl]
    cases h : splitNl rest with
    | nil => exact absurd h ih
    | cons r rs =>
      by_cases hc : c == 10 <;> simp [hc]

theorem splitNl_append (x rest : List Nat) (hx : x.contains 10 = false) :
    splitNl (x ++ 10 :: rest) = x :: splitNl rest := by
  induction x with
  | nil =>
    simp only [List.nil_append, splitNl]
    cases h : splitNl rest with
    | nil => exact absurd h (splitNl_ne_nil rest)
    | cons r rs => simp
  | cons c x ih =>
    simp only [List.contains_cons, Bool.or_eq_false_iff] at hx
    have hc : (c == 10) = false := by
      simp only [beq_eq_false_iff_ne] at hx ⊢
      exact fun h => hx.1 h.symm
    simp only [List.cons_append, splitNl, List.append_eq]
    rw [ih hx.2]
    simp [hc]

theorem marshalBinary_eq_some {p : Point} (h : p.marshalBinary.isSome) :
    p.valid = true ∧ wellFormedLine p.raw = true ∧ p.marshalBinary = some p.raw := by
  by_cases hb : (p.valid && wellFormedLine p.raw) = true
  · have hv := hb
    rw [Bool.and_eq_true] at hv
    exact ⟨hv.1, hv.2, by simp [Point.marshalBinary, hb]⟩
  · rw [Point.marshalBinary, if_neg hb] at h
    simp at h

theorem splitNl_marshalPoints (points : List Point)
    (h : ∀ p ∈ points, p.marshalBinary.isSome) :
    splitNl (marshalPoints points) = points.map Point.raw ++ [[]] := by
  induction points with
  | nil => simp [marshalPoints, splitNl]
  | cons p ps ih =>
    obtain ⟨_, hwf, hsome⟩ := marshalBinary_eq_some (h p (by simp))
    have hnl : p.raw.contains 10 = false := by
      rw [wellFormedLine, Bool.and_eq_true, Bool.and_eq_true] at hwf
      simpa using hwf.1.2
    have : marshalPoints (p :: ps) = p.raw ++ 10 :: marshalPoints ps := by
      simp [marshalPoints, hsome]
    rw [this, splitNl_append _ _ hnl, ih (fun q hq => h q (by simp [hq]))]
    simp

theorem map_mk_raw (points : List Point) (h : ∀ p ∈ points, p.valid = true) :
    points.map (fun p => ({ raw := p.raw, valid := true } : Point)) = points := by
  induction points with
  | nil => rfl
  | cons p ps ih =>
    have hp : ({ raw := p.raw, valid := true } : Point) = p := by
      have := h p (by simp)
      cases p
      simp_all
    simp only [List.map_cons, hp, ih (fun q hq => h q (by simp [hq]))]

theorem parsePoints_marshalPoints (points : List Point)
    (h : ∀ p ∈ points, p.marshalBinary.isSome) :
    parsePoints (marshalPoints points) = (points, none) := by
  have hwf : ∀ p ∈ points, wellFormedLine p.raw = true :=
    fun p hp => (marshalBinary_eq_some (h p hp)).2.1
  have hne : ∀ p ∈ points, (!p.raw.isEmpty) = true := by
    intro p hp
    have := hwf p hp
    rw [wellFormedLine, Bool.and_eq_true, Bool.and_eq_true] at this
    exact this.1.1
  have hfilter : (points.map Point.raw ++ [[]]).filter (fun l => !l.isEmpty)
      = points.map Point.raw := by
    rw [List.filter_append, List.filter_eq_self.mpr (by
      intro l hl
      obtain ⟨p, hp, rfl⟩ := List.mem_map.mp hl
      exact hne p hp)]
    simp
  have hall : ((points.map Point.raw).all wellFormedLine) = true := by
    rw [List.all_eq_true]
    intro l hl
    obtain ⟨p, hp, rfl⟩ := List.mem_map.mp hl
    exact hwf p hp
  rw [parsePoints, splitNl_marshalPoints points h]
  simp only [hfilter]
  rw [if_pos hall, List.map_map]
  have : ∀ p ∈ points, p.valid = true :=
    fun p hp => (marshalBinary_eq_some (h p hp)).1
  rw [show ((fun l => ({ raw := l, valid := true } : Point)) ∘ Point.raw)
      = fun p => ({ raw := p.raw, valid := true } : Point) from rfl]
  rw [map_mk_raw points this]

theorem marshalWrite_take_8 (shardID : Nat) (points : List Point) :
    (marshalWrite shardID points).take 8 = putUint64 shardID := by
  have h8 : (putUint64 shardID).length = 8 := rfl
  rw [marshalWrite, ← h8, List.take_left]

theorem marshalWrite_drop_8 (shardID : Nat) (points : List Point) :
    (marshalWrite shardID points).drop 8 = marshalPoints points := by
  have h8 : (putUint64 shardID).length = 8 := rfl
  rw [marshalWrite, ← h8, List.drop_left]

theorem marshalWrite_length (shardID : Nat) (points : List Point) :
    (marshalWrite shardID points).length = 8 + (marshalPoints points).length := by
  simp [marshalWrite, putUint64]
  omega

theorem marshalPoints_filter (points : List Point) :
    marshalPoints (points.filter (fun p => p.marshalBinary.isSome))
      = marshalPoints points := by
  induction points with
  | nil => rfl
  | cons p ps ih =>
    cases hm : p.marshalBinary with
    | none =>
      rw [List.filter_cons, if_neg (by simp [hm])]
      simp [marshalPoints, hm, ih]
    | some pB =>
      rw [List.filter_cons, if_pos (by simp [hm])]
      simp [marshalPoints, hm, ih]

theorem generic_beq_eof (m : String) : (GoErr.generic m == GoErr.eof) = false := rfl

theorem generic_beq_nnf (m : String) :
    (GoErr.generic m == GoErr.nodeNotFound) = false := rfl

/-- C4: whenever `Active` reports the target node is not a member (the
metadata client returns a nil `NodeInfo` with no error, as
`store.dataNode` does for every id not in the data-node list),
`SendWrite` returns the EOF sentinel with the state untouched — in
particular without reading a block from the queue; and `dataNode`
returns a `NodeInfo` exactly when a data node with that ID exists, in
which case its `ID` field equals the requested id. -/
theorem c4_inactive_membership :
    (∀ (w : Option GoErr) (s : NPState) (nodes : List NodeInfo),
        dataNode nodes s.nodeID = none →
        SendWrite (.ok (dataNode nodes s.nodeID)) w s = (.error .eof, s)) ∧
    (∀ (nodes : List NodeInfo) (id : Nat),
        (dataNode nodes id).isSome = true ↔ ∃ n ∈ nodes, n.ID = id) ∧
    (∀ (nodes : List NodeInfo) (id : Nat) (info : NodeInfo),
        dataNode nodes id = some info → info.ID = id) := by
  refine ⟨?_, ?_, ?_⟩
  · intro w s nodes h
    rw [h]
    simp [SendWrite]
  · intro nodes id
    induction nodes with
    | nil => simp [dataNode]
    | cons n rest ih =>
      by_cases hn : (n.ID == id) = true
      · simp only [dataNode, if_pos hn, Option.isSome_some, true_iff]
        exact ⟨n, by simp, by simpa using hn⟩
      · simp only [dataNode, if_neg hn]
        rw [ih]
        constructor
        · rintro ⟨m, hm, hid⟩
          exact ⟨m, by simp [hm], hid⟩
        · rintro ⟨m, hm, hid⟩
          rcases List.mem_cons.mp hm with rfl | hm'
          · exact absurd hid (by simpa using hn)
          · exact ⟨m, hm', hid⟩
  · intro nodes id
    induction nodes with
    | nil => intro info h; simp [dataNode] at h
    | cons n rest ih =>
      intro info h
      rw [dataNode] at h
      by_cases hn : (n.ID == id) = true
      · rw [if_pos hn] at h
        have h2 := Option.some.inj h
        rw [← h2]
        simpa using hn
      · rw [if_neg hn] at h
        exact ih info h

/-- Witness for C4 at concrete inputs: an empty data-node list makes
`SendWrite` return EOF and leave the nonempty queue untouched, and
node 2 is found in `[node2]` with the right ID. -/
theorem c4_inactive_membership_witness :
    SendWrite (.ok (dataNode [] stOneBlock.nodeID)) none stOneBlock
      = (.error .eof, stOneBlock) ∧
    ((dataNode [node2] 2).isSome = true ↔ ∃ n ∈ [node2], n.ID = 2) ∧
    node2.ID = 2 :=
  ⟨c4_inactive_membership.1 none stOneBlock [] rfl,
   c4_inactive_membership.2.1 [node2] 2,
   c4_inactive_membership.2.2 [node2] 2 node2 rfl⟩

/-- C5: for every block whose payload fails to decode, `SendWrite`
increments the `writeNodeReqFail` counter and advances the queue past
that block (poison-message policy), returning `(len(buf), nil)` rather
than the decode error, so a corrupt record never blocks the queue
head. -/
theorem c5_decode_error_poison_policy (info : NodeInfo) (writerErr : Option GoErr)
    (s : NPState) (buf : List Nat) (rest : List (List Nat)) (msg : String)
    (hq : s.queue = buf :: rest)
    (hdec : (unmarshalWrite buf).2.2 = some msg) :
    SendWrite (.ok (some info)) writerErr s =
      (.ok buf.length,
       { s with
          queue := rest,
          stats := { s.stats with
                      WriteNodeReqFail := s.stats.WriteNodeReqFail + 1 } }) := by
  rcases hu : unmarshalWrite buf with ⟨sid, pts, err⟩
  simp only [hu] at hdec
  subst hdec
  simp [SendWrite, hq, hu, generic_beq_eof, generic_beq_nnf]

/-- Witness for C5: a 3-byte block is too short to decode; sending it
counts one node-request failure and advances the queue. -/
theorem c5_decode_error_poison_policy_witness :
    SendWrite (.ok (some node2)) none stShortBlock =
      (.ok ([1, 2, 3] : List Nat).length,
       { stShortBlock with
          queue := [],
          stats := { stShortBlock.stats with
                      WriteNodeReqFail := stShortBlock.stats.WriteNodeReqFail + 1 } }) :=
  c5_decode_error_poison_policy node2 none stShortBlock [1, 2, 3] []
    ("too short: len = " ++ toString (3 : Nat)) rfl rfl

/-- C6: for every shardID (< 2^64, as in Go's uint64) and list of
points, `unmarshalWrite` applied to `marshalWrite shardID points`
yields the same shardID; it yields exactly the same points with no
error when every point encodes successfully; and points whose encoding
fails are silently dropped by `marshalWrite` (its output equals that on
the successfully-encoding points alone, with no error reported). -/
theorem c6_marshal_unmarshal_roundtrip (shardID : Nat) (points : List Point)
    (hid : shardID < 2 ^ 64) :
    (unmarshalWrite (marshalWrite shardID points)).1 = shardID ∧
    ((∀ p ∈ points, p.marshalBinary.isSome) →
      unmarshalWrite (marshalWrite shardID points) = (shardID, points, none)) ∧
    marshalWrite shardID points
      = marshalWrite shardID (points.filter (fun p => p.marshalBinary.isSome)) := by
  have hlen : ¬ (marshalWrite shardID points).length < 8 := by
    rw [marshalWrite_length]
    omega
  refine ⟨?_, ?_, ?_⟩
  · rcases hp : parsePoints ((marshalWrite shardID points).drop 8) with ⟨pts, err⟩
    simp only [unmarshalWrite, if_neg hlen, hp, marshalWrite_take_8,
      readUint64_putUint64 shardID hid]
  · intro hall
    have hp : parsePoints ((marshalWrite shardID points).drop 8) = (points, none) := by
      rw [marshalWrite_drop_8]
      exact parsePoints_marshalPoints points hall
    simp only [unmarshalWrite, if_neg hlen, hp, marshalWrite_take_8,
      readUint64_putUint64 shardID hid]
  · rw [marshalWrite, marshalWrite, marshalPoints_filter]

/-- Witness for C6: shard 7 with two encodable points round-trips, and
an unencodable point in the middle is dropped. -/
theorem c6_marshal_unmarshal_roundtrip_witness :
    (unmarshalWrite (marshalWrite 7 [pA, pB])).1 = 7 ∧
    unmarshalWrite (marshalWrite 7 [pA, pB]) = (7, [pA, pB], none) ∧
    marshalWrite 7 [pA, pBad, pB]
      = marshalWrite 7 ([pA, pBad, pB].filter (fun p => p.marshalBinary.isSome)) :=
  ⟨(c6_marshal_unmarshal_roundtrip 7 [pA, pB] (by norm_num)).1,
   (c6_marshal_unmarshal_roundtrip 7 [pA, pB] (by norm_num)).2.1 (by decide),
   (c6_marshal_unmarshal_roundtrip 7 [pA, pBad, pB] (by norm_num)).2.2⟩

/-- C8: `Purge` fails with an error when the processor is open
(`done` non-nil), leaving the queue directory in place (the state is
unchanged); when the processor is closed it recursively deletes the
queue directory. -/
theorem c8_purge_requires_closed (s : NPState) :
    (s.done = true → Purge s = (.error "node processor is open", s)) ∧
    (s.done = false → Purge s = (.ok (), { s with dirExists := false, queue := [] })) := by
  constructor <;> intro h <;> simp [Purge, h]

/-- Witness for C8: purging the open processor fails and changes
nothing; purging the closed one removes the directory. -/
theorem c8_purge_requires_closed_witness :
    Purge stOpen = (.error "node processor is open", stOpen) ∧
    Purge stClosed = (.ok (), { stClosed with dirExists := false, queue := [] }) :=
  ⟨(c8_purge_requires_closed stOpen).1 rfl,
   (c8_purge_requires_closed stClosed).2 rfl⟩

theorem open_already_open {env : OpenEnv} {s : NPState} (hd : s.done = true) :
    Open env s = (.ok (), s) := by
  simp [Open, hd]

theorem open_ok_done {env : OpenEnv} {s s' : NPState}
    (h : Open env s = (.ok (), s')) : s'.done = true := by
  by_cases hd : s.done
  · rw [open_already_open hd] at h
    have := congrArg Prod.snd h
    simp only at this
    rw [← this]
    exact hd
  · simp only [Open, if_neg hd] at h
    by_cases hm : env.mkdirOk = false
    · rw [if_pos hm] at h
      simp at h
    · rw [if_neg hm] at h
      cases hq : env.newQueueResult with
      | error e =>
        rw [hq] at h
        simp at h
      | ok blocks =>
        rw [hq] at h
        cases ho : env.queueOpenErr with
        | some e =>
          rw [ho] at h
          simp at h
        | none =>
          rw [ho] at h
          have := congrArg Prod.snd h
          simp only at this
          rw [← this]

theorem close_done_false (e : Option String) (s : NPState) :
    (Close e s).2.done = false := by
  by_cases hd : s.done = false
  · simp [Close, hd]
  · simp only [Close, if_neg hd]
    cases e <;> simp

/-- C9: `Open` and `Close` are idempotent: after a successful `Open`, a
second `Open` returns nil and leaves the whole state (queue, worker,
done channel) exactly as after the first; and a second consecutive
`Close` returns nil and changes nothing, whatever the first `Close`
returned. -/
theorem c9_open_close_idempotent :
    (∀ (env : OpenEnv) (s s' : NPState),
        Open env s = (.ok (), s') → Open env s' = (.ok (), s')) ∧
    (∀ (e1 e2 : Option String) (s : NPState),
        Close e2 (Close e1 s).2 = (.ok (), (Close e1 s).2)) := by
  constructor
  · intro env s s' h
    exact open_already_open (open_ok_done h)
  · intro e1 e2 s
    have h := close_done_false e1 s
    generalize (Close e1 s).2 = x at h ⊢
    simp [Close, h]

/-- Witness for C9: reopening the concrete opened state is a no-op, and
a second `Close` after closing `stOpen` is a no-op. -/
theorem c9_open_close_idempotent_witness :
    Open envOk stOpened = (.ok (), stOpened) ∧
    Close none (Close none stOpen).2 = (.ok (), (Close none stOpen).2) :=
  ⟨c9_open_close_idempotent.1 envOk stClosed stOpened rfl,
   c9_open_close_idempotent.2 none none stOpen⟩

/-- C10: `unmarshalWrite` is total: every input shorter than 8 bytes
yields an error rather than reading out of bounds, and on inputs of at
least 8 bytes the shardID is read from exactly the first 8 bytes;
dually `marshalWrite` always returns a block of length at least 8, so
its output never triggers the too-short error. -/
theorem c10_unmarshal_total (b : List Nat) :
    (b.length < 8 → (unmarshalWrite b).2.2.isSome = true) ∧
    (8 ≤ b.length → (unmarshalWrite b).1 = readUint64 (b.take 8)) ∧
    (∀ (shardID : Nat) (points : List Point),
      8 ≤ (marshalWrite shardID points).length) := by
  refine ⟨?_, ?_, ?_⟩
  · intro h
    simp [unmarshalWrite, h]
  · intro h
    rcases hp : parsePoints (b.drop 8) with ⟨pts, err⟩
    simp [unmarshalWrite, Nat.not_lt.mpr h, hp]
  · intro shardID points
    rw [marshalWrite_length]
    omega

/-- Witness for C10: a 3-byte input errors, a produced block reads its
shardID from the first 8 bytes, and every `marshalWrite` block has
length at least 8. -/
theorem c10_unmarshal_total_witness :
    (unmarshalWrite [1, 2, 3]).2.2.isSome = true ∧
    (unmarshalWrite (marshalWrite 7 [pA, pB])).1
      = readUint64 ((marshalWrite 7 [pA, pB]).take 8) ∧
    8 ≤ (marshalWrite 7 [pA, pB]).length :=
  ⟨(c10_unmarshal_total [1, 2, 3]).1 (by norm_num),
   (c10_unmarshal_total (marshalWrite 7 [pA, pB])).2.1 (by decide),
   (c10_unmarshal_total []).2.2 7 [pA, pB]⟩

/-- C1: the claim states that on a shard-writer error other than
node-not-found (and other than EOF) `SendWrite` returns the error
without advancing the queue.  The code does the opposite: the advance
at the end of `SendWrite` is unconditional (despite the comment
"Advance pos in segment if r is nil"), so on a generic writer error the
block is skipped and `(len(buf), nil)` is returned — this theorem
evaluates the code at such an input: the head block is dropped and no
error is reported to the worker loop. -/
theorem c1_generic_writer_error_advances :
    SendWrite (.ok (some node2)) (some (.generic "write failed")) stOneBlock =
      (.ok 13, { stOneBlock with queue := [] }) := rfl

/-- C2: the claim states that every generic `SendWrite` error doubles
the retry interval (capped at `RetryMaxInterval`), predicting delays
100, 200, 400 for three consecutive failures under
RetryInterval=100/RetryMaxInterval=800.  The worker loop of the code
never doubles: on a generic error it only caps the interval, so after
one, two or three consecutive generic failures the interval is still
100 (not 200/400); after a success it is reset to 100. -/
theorem c2_interval_never_doubled :
    (runOnSendResult cfg100 100 (.error (.generic "e1"))).2 = 100 ∧
    intervalAfter cfg100 100
        [.error (.generic "e1"), .error (.generic "e2")] = 100 ∧
    intervalAfter cfg100 100
        [.error (.generic "e1"), .error (.generic "e2"), .error (.generic "e3")] = 100 ∧
    (runOnSendResult cfg100 100 (.ok 13)).2 = 100 :=
  ⟨rfl, rfl, rfl, rfl⟩

/-- C3: the claim states that a batch in which no point encodes
successfully is never enqueued.  In the code `marshalWrite` always
returns at least the 8-byte shard header, so the `len(b) == 0` guard in
`WriteShard` never fires: this theorem evaluates the code on a batch
whose single point fails to encode — the call succeeds but the 8-byte
header-only block IS appended to the queue. -/
theorem c3_unencodable_batch_is_appended :
    WriteShard none 7 [pBad] stOpen =
      (.ok (),
       { stOpen with
          queue := [putUint64 7],
          stats := { WriteShardReq := 2, WriteShardReqPoints := 1 } }) ∧
    marshalWrite 7 [pBad] = putUint64 7 ∧
    (putUint64 7).length = 8 :=
  ⟨rfl, rfl, rfl⟩

/-- C7 counterexample: in the claim's scenario (one `WriteShard` of two
points on an open processor, then one successful worker send) the code
yields writeShardReq = 3, not 1 as claimed: `WriteShard` increments it
twice (producer side and after the successful append) and the worker
success path increments it once more. -/
theorem c7_writeShardReq_counterexample :
    c7AfterWrite.1 = .ok () ∧ c7AfterSend.1 = .ok 13 ∧
    c7AfterSend.2.stats.WriteShardReq = 3 ∧
    ¬ c7AfterSend.2.stats.WriteShardReq = 1 :=
  ⟨rfl, rfl, rfl, by decide⟩

/-- C7 amended: after one `writeShard` call with two points on an open
processor whose stub shard writer succeeds, once the worker has sent
the single block the queue is empty and the counters read
writeShardReq = 3 (two increments from `WriteShard`, one from the
worker success path), writeNodeReq = 1 and writeNodeReqPoints = 2. -/
theorem c7_counters_amended :
    c7AfterWrite.1 = .ok () ∧ c7AfterSend.1 = .ok 13 ∧
    c7AfterSend.2.queue = [] ∧
    c7AfterSend.2.stats.WriteShardReq = 3 ∧
    c7AfterSend.2.stats.WriteNodeReq = 1 ∧
    c7AfterSend.2.stats.WriteNodeReqPoints = 2 :=
  ⟨rfl, rfl, rfl, rfl, rfl, rfl⟩

end Influxcloud
